import Mathlib

/-!
Verification development for the K6 stress/load reporter scripts.

JavaScript numbers are modelled as exact rationals.  Values that can be
non-finite in JavaScript, such as the result of a division by zero or an
out-of-bounds array read, are modelled as `Option` values where `none`
stands for NaN / Infinity / undefined.  ISO-8601 timestamp strings are
represented by their parsed epoch-millisecond value, since the scripts only
ever subtract them after passing them through the Date constructor.
-/

namespace K6

/-- JavaScript Math.round: round half towards positive infinity. -/
def jsRound (q : ℚ) : ℤ := ⌊q + 1/2⌋

/-- JavaScript division where a zero divisor yields a non-finite value,
    modelled as `none`. -/
def jsDivOpt (a b : ℚ) : Option ℚ := if b = 0 then none else some (a / b)

/-- JavaScript Number.prototype.toFixed with one fractional digit, kept as an
    exact rational instead of a string. -/
def jsToFixed1 (q : ℚ) : ℚ := (jsRound (q * 10) : ℚ) / 10

/-- JavaScript Number.prototype.toFixed with two fractional digits. -/
def jsToFixed2 (q : ℚ) : ℚ := (jsRound (q * 100) : ℚ) / 100

/-- JavaScript Math.min over a spread array; the empty case gives Infinity,
    modelled as `none`. -/
def jsMin : List ℚ → Option ℚ
  | [] => none
  | x :: xs => some (xs.foldl min x)

/-- JavaScript Math.max over a spread array; the empty case gives -Infinity,
    modelled as `none`. -/
def jsMax : List ℚ → Option ℚ
  | [] => none
  | x :: xs => some (xs.foldl max x)

/-- JavaScript Array.prototype.sort with the numeric comparator
    (a, b) => a - b.  On numbers any ascending sort of the same multiset is
    the same list, so insertion sort is an exact model. -/
def jsSortNum (l : List ℚ) : List ℚ := l.insertionSort (· ≤ ·)

/-- JavaScript string truthiness for an optional tag: an absent tag and the
    empty string are both falsy. -/
def tagTruthy (o : Option String) : Option String :=
  match o with
  | some s => if s = "" then none else some s
  | none => none

/-- JavaScript a || b for an optional string a and a string fallback b. -/
def jsOrS (a : Option String) (b : String) : String :=
  match tagTruthy a with
  | some s => s
  | none => b

/-- Tags attached to one k6 sample.  The load_level tag is stored already
    parsed as an integer, collapsing the parseInt / toString round trip the
    exporter performs on it. -/
structure Tags where
  endpoint : Option String := none
  name : Option String := none
  check : Option String := none
  load_level : Option ℤ := none
deriving DecidableEq

/-- The data object of one k6 NDJSON record. -/
structure MetricData where
  value : ℚ := 0
  time : ℚ := 0
  tags : Tags := {}
deriving DecidableEq

/-- One k6 NDJSON record.  An absent metric field is modelled by the empty
    string, which is falsy in JavaScript exactly like undefined. -/
structure Metric where
  metric : String := ""
  type : Option String := none
  data : MetricData := {}
deriving DecidableEq

/-- The outcome of JSON.parse on one line of the input file: either a parsed
    record or a parse failure. -/
inductive LineParse where
  | ok (m : Metric)
  | bad
deriving DecidableEq

/-- Whether a line parses as JSON. -/
def LineParse.isOk : LineParse → Bool
  | .ok _ => true
  | .bad => false

end K6

namespace K6.Streaming

/-! Shallow embedding of k6_tests/analyze-k6-streaming.js. -/

/-- calculateAverage from analyze-k6-streaming.js: sum / length with an
    explicit 0 for the empty list. -/
def calculateAverage (values : List ℚ) : ℚ :=
  if values.length = 0 then 0 else values.sum / values.length

/-- calculatePercentile from analyze-k6-streaming.js: explicit 0 for the
    empty list, otherwise the sorted element at index
    max 0 (ceil(percentile/100 * n) - 1).  An out-of-bounds read would give
    undefined, modelled by `none`. -/
def calculatePercentile (values : List ℚ) (percentile : ℚ) : Option ℚ :=
  if values.length = 0 then some 0
  else
    let sorted := jsSortNum values
    let index : ℤ := ⌈percentile / 100 * sorted.length⌉ - 1
    sorted[(max 0 index).toNat]?

/-- Per-metric state of the streaming line loop: the values list collected
    for each metric name, plus the separate checks list. -/
structure StreamState where
  values : List (String × List MetricData) := []
  checks : List MetricData := []
deriving DecidableEq

/-- Insert-or-update in an insertion-ordered association list, mirroring
    JavaScript object key creation order. -/
def upsertWith {β : Type} (l : List (String × β)) (k : String)
    (init : β) (f : β → β) : List (String × β) :=
  if l.any (·.1 = k) then
    l.map fun p => if p.1 = k then (p.1, f p.2) else p
  else
    l ++ [(k, f init)]

/-- Lookup in an insertion-ordered association list. -/
def lookupKey {β : Type} (l : List (String × β)) (k : String) : Option β :=
  (l.find? (·.1 = k)).map (·.2)

/-- One iteration of the lines.forEach body of analyzeK6StreamingResults.
    A type:"Metric" line overwrites the stored entry for that metric with the
    definition object, discarding values collected so far; a line with a
    truthy metric field pushes its data onto that metric's values; a
    type:"Check" line with a falsy metric field pushes onto checks. -/
def streamStep (st : StreamState) (m : Metric) : StreamState :=
  if m.type = some "Metric" then
    { st with values :=
        if st.values.any (·.1 = m.metric) then
          st.values.map fun p => if p.1 = m.metric then (p.1, []) else p
        else st.values ++ [(m.metric, [])] }
  else if m.metric ≠ "" then
    { st with values := upsertWith st.values m.metric [] (· ++ [m.data]) }
  else if m.type = some "Point" then
    { st with values := upsertWith st.values m.metric [] (· ++ [m.data]) }
  else if m.type = some "Check" then
    { st with checks := st.checks ++ [m.data] }
  else st

/-- The line loop with its per-line try/catch: a line that fails JSON.parse
    is skipped. -/
def streamLineStep (st : StreamState) (line : LineParse) : StreamState :=
  match line with
  | .ok m => streamStep st m
  | .bad => st

/-- The whole parsing loop of analyzeK6StreamingResults over the input
    lines. -/
def streamParse (lines : List LineParse) : StreamState :=
  lines.foldl streamLineStep {}

/-- The endpoint key used when grouping duration points:
    point.tags?.endpoint || point.tags?.name || 'Unknown'. -/
def streamEndpointKey (t : Tags) : String :=
  jsOrS t.endpoint (jsOrS t.name "Unknown")

/-- Per-endpoint accumulation of the streaming analyzer. -/
structure StreamBucket where
  durations : List ℚ := []
  errors : ℕ := 0
deriving DecidableEq

/-- One iteration of the httpReqDuration.forEach grouping loop. -/
def streamGroupStep (st : List (String × StreamBucket)) (point : MetricData) :
    List (String × StreamBucket) :=
  upsertWith st (streamEndpointKey point.tags) {}
    (fun b => { b with durations := b.durations ++ [point.value] })

/-- One iteration of the httpReqFailed.forEach error-counting loop: counts
    only when the failure value is 1 and the endpoint bucket already
    exists. -/
def streamErrorStep (st : List (String × StreamBucket)) (point : MetricData) :
    List (String × StreamBucket) :=
  if point.value = 1 then
    let k := streamEndpointKey point.tags
    if st.any (·.1 = k) then
      st.map fun p => if p.1 = k then (p.1, { p.2 with errors := p.2.errors + 1 }) else p
    else st
  else st

/-- The endpointStats object built from the collected duration and failure
    points. -/
def streamEndpointStats (durations failed : List MetricData) :
    List (String × StreamBucket) :=
  (failed.foldl streamErrorStep (durations.foldl streamGroupStep []))

/-- The per-endpoint statistics printed by analyzeK6StreamingResults from a
    bucket's durations (the source sorts the list in place first). -/
structure StreamStats where
  count : ℕ
  avg : ℚ
  p50 : Option ℚ
  p90 : Option ℚ
  p95 : Option ℚ
  p99 : Option ℚ
  min : Option ℚ
  max : Option ℚ
deriving DecidableEq

/-- The statistics block of the Object.keys(endpointStats).forEach loop in
    analyzeK6StreamingResults. -/
def endpointStatsOf (durations0 : List ℚ) : StreamStats :=
  let durations := jsSortNum durations0
  let count := durations.length
  { count := count
    avg := durations.sum / count
    p50 := calculatePercentile durations 50
    p90 := calculatePercentile durations 90
    p95 := calculatePercentile durations 95
    p99 := calculatePercentile durations 99
    min := jsMin durations
    max := jsMax durations }

end K6.Streaming

namespace K6.Spec

/-- Modelled from the spec: the nearest-rank percentile policy of section
    4.3, selecting the element at index ceil(k/100 * n) - 1 of the ascending
    sorted sequence, clamped to the interval from 0 to n - 1. -/
def specNearestRank (sorted : List ℚ) (k : ℚ) : ℚ :=
  let n : ℤ := sorted.length
  let idx : ℤ := max 0 (min (n - 1) (⌈k / 100 * (n : ℚ)⌉ - 1))
  sorted.getD idx.toNat 0

end K6.Spec

namespace K6.Exporter

/-! Shallow embedding of the Excel-export script (src/unnamed/part_001). -/

/-- The text standing before the first occurrence of the separator sep in a
    character list, or `none` when the separator does not occur.  This models
    the pair checkName.includes(sep) / checkName.split(sep)[0]. -/
def beforeSub (sep : List Char) : List Char → Option (List Char)
  | [] => none
  | c :: cs =>
    if sep.isPrefixOf (c :: cs) then some []
    else (beforeSub sep cs).map (c :: ·)

/-- The endpoint key derived from a check name: the part before the first
    occurrence of the separator string, or Unknown when the separator is
    absent. -/
def checkEndpointOf (checkName : String) : String :=
  match beforeSub " - ".data checkName.data with
  | some pre => String.mk pre
  | none => "Unknown"

/-- One pushed sample entry: value, time and the full tags object. -/
structure Entry where
  value : ℚ
  time : ℚ
  tags : Tags := {}
deriving DecidableEq

/-- One pushed check entry: value, time and the check name. -/
structure CheckEntry where
  value : ℚ
  time : ℚ
  check : String
deriving DecidableEq

/-- The per-endpoint accumulation object of parseK6Results in the export
    script.  globalDataReceived and globalDataSent start absent (undefined)
    and are filled in by the proportional-distribution pass. -/
structure Bucket where
  requests : List Entry := []
  durations : List Entry := []
  checks : List CheckEntry := []
  blocked : List Entry := []
  connecting : List Entry := []
  sending : List Entry := []
  waiting : List Entry := []
  receiving : List Entry := []
  dataReceived : List Entry := []
  dataSent : List Entry := []
  globalDataReceived : Option ℚ := none
  globalDataSent : Option ℚ := none
deriving DecidableEq

/-- State of the metrics.forEach loop: the endpoint map plus the two global
    data counters. -/
structure ParseState where
  endpointData : List (String × Bucket) := []
  globalDataReceived : ℚ := 0
  globalDataSent : ℚ := 0
deriving DecidableEq

open K6.Streaming (upsertWith lookupKey)

/-- The switch statement routing one endpoint-tagged metric into its bucket
    list; an unmatched metric name leaves the bucket unchanged (the bucket is
    still created). -/
def routeMetric (metricType : String) (e : Entry) (b : Bucket) : Bucket :=
  match metricType with
  | "http_reqs" => { b with requests := b.requests ++ [e] }
  | "http_req_duration" => { b with durations := b.durations ++ [e] }
  | "http_req_blocked" => { b with blocked := b.blocked ++ [e] }
  | "http_req_connecting" => { b with connecting := b.connecting ++ [e] }
  | "http_req_sending" => { b with sending := b.sending ++ [e] }
  | "http_req_waiting" => { b with waiting := b.waiting ++ [e] }
  | "http_req_receiving" => { b with receiving := b.receiving ++ [e] }
  | "data_received" => { b with dataReceived := b.dataReceived ++ [e] }
  | "data_sent" => { b with dataSent := b.dataSent ++ [e] }
  | _ => b

/-- One iteration of the metrics.forEach body of parseK6Results in the
    export script: a checks metric with a truthy check tag is keyed by the
    check name heuristic, any metric with a truthy endpoint tag is routed by
    its metric name, and untagged data_received / data_sent lines update the
    global counters. -/
def parseStep (st : ParseState) (m : Metric) : ParseState :=
  if m.metric = "checks" ∧ (tagTruthy m.data.tags.check).isSome then
    let checkName := (tagTruthy m.data.tags.check).getD ""
    let pushCheck : Bucket → Bucket := fun b =>
      { b with checks := b.checks ++ [⟨m.data.value, m.data.time, checkName⟩] }
    let ed := upsertWith st.endpointData (checkEndpointOf checkName) ({} : Bucket) pushCheck
    { st with endpointData := ed }
  else if (tagTruthy m.data.tags.endpoint).isSome then
    let endpoint := (tagTruthy m.data.tags.endpoint).getD ""
    let route := routeMetric m.metric ⟨m.data.value, m.data.time, m.data.tags⟩
    let ed := upsertWith st.endpointData endpoint ({} : Bucket) route
    { st with endpointData := ed }
  else if m.metric = "data_received" then
    { st with globalDataReceived := m.data.value }
  else if m.metric = "data_sent" then
    { st with globalDataSent := m.data.value }
  else st

/-- The proportional distribution of the global data counters over the
    endpoints, by each endpoint's share of the request count. -/
def distributeGlobals (st : ParseState) : List (String × Bucket) :=
  if st.endpointData.length > 0 then
    let totalRequests := (st.endpointData.map (·.2.requests.length)).sum
    st.endpointData.map fun p =>
      if totalRequests > 0 then
        let proportion : ℚ := p.2.requests.length / totalRequests
        (p.1, { p.2 with
          globalDataReceived := some (jsRound (st.globalDataReceived * proportion) : ℚ)
          globalDataSent := some (jsRound (st.globalDataSent * proportion) : ℚ) })
      else p
  else st.endpointData

/-- The per-line JSON.parse of the export script, whose try/catch turns a
    malformed line into null. -/
def parseLine : LineParse → Option Metric
  | .ok m => some m
  | .bad => none

/-- The metrics array of parseK6Results in the export script:
    lines.map(JSON.parse or null).filter(not null). -/
def metricsOf (lines : List LineParse) : List Metric :=
  (lines.map parseLine).filterMap id

/-- parseK6Results of the export script, from the per-line parse outcomes of
    the input file to the endpoint map. -/
def parseK6Results (lines : List LineParse) : List (String × Bucket) :=
  distributeGlobals ((metricsOf lines).foldl parseStep {})

/-- The test duration in seconds derived from the first and last request
    timestamps, floored at one second; zero when there are no requests. -/
def testDurationOf (requests : List Entry) : ℚ :=
  match requests with
  | [] => 0
  | r :: rs => max 1 (((rs.getLastD r).time - r.time) / 1000)

/-- The statistics record built by calculateEndpointStats in the export
    script.  Fields that can be non-finite in JavaScript are Option values;
    dateTime is the wall-clock timestamp, passed in as the parameter now. -/
structure Stats where
  endpoint : String
  dateTime : String
  totalRequests : ℕ
  successRate : ℚ
  minResponseTime : Option ℤ
  maxResponseTime : Option ℤ
  avgResponseTime : ℤ
  medianResponseTime : ℤ
  p95ResponseTime : ℤ
  p99ResponseTime : ℤ
  avgBlockedTime : ℚ
  avgConnectingTime : ℚ
  avgSendingTime : ℚ
  avgWaitingTime : ℚ
  avgReceivingTime : ℚ
  totalDataReceivedKB : ℤ
  totalDataSentKB : ℤ
  requestsPerSecond : Option ℚ
  peakRequestRate : Option ℚ
  responseTimeAtPeak : ℤ
  maxLoadLevel : ℤ
deriving DecidableEq

/-- The guarded timing-phase average: rounded to two decimals when the list
    is non-empty, 0 otherwise. -/
def avgPhase (l : List Entry) : ℚ :=
  if l.length > 0 then
    (jsRound ((l.map (·.value)).sum / l.length * 100) : ℚ) / 100
  else 0

/-- calculateEndpointStats of the export script.  The JavaScript
    x || 0 guards map NaN and undefined to 0 and are the identity on every
    finite number, including 0, which is what getD 0 computes on the Option
    model. -/
def calculateEndpointStats (now : String) (endpoint : String) (data : Bucket) :
    Stats :=
  let durations := data.durations.map (·.value)
  let sortedDurations := jsSortNum durations
  let n := sortedDurations.length
  let testDuration := testDurationOf data.requests
  let loadLevels := data.requests.filterMap (·.tags.load_level)
  let maxLoadLevel : ℤ :=
    match loadLevels with
    | [] => 0
    | x :: xs => xs.foldl max x
  let peakLoadDurations :=
    if loadLevels.length > 0 then
      (data.durations.filter (·.tags.load_level = some maxLoadLevel)).map (·.value)
    else []
  let responseTimeAtPeak : ℤ :=
    if peakLoadDurations.length > 0 then
      jsRound (peakLoadDurations.sum / peakLoadDurations.length)
    else 0
  { endpoint := endpoint
    dateTime := now
    totalRequests := data.requests.length
    successRate :=
      if data.checks.length > 0 then
        jsToFixed1 ((data.checks.filter (·.value = 1)).length /
          (data.checks.length : ℚ) * 100)
      else 0
    minResponseTime := (jsMin durations).map jsRound
    maxResponseTime := (jsMax durations).map jsRound
    avgResponseTime := jsRound ((jsDivOpt durations.sum durations.length).getD 0)
    medianResponseTime := jsRound ((sortedDurations[n / 2]?).getD 0)
    p95ResponseTime :=
      jsRound ((sortedDurations[(⌊(n : ℚ) * (95/100)⌋).toNat]?).getD 0)
    p99ResponseTime :=
      jsRound ((sortedDurations[(⌊(n : ℚ) * (99/100)⌋).toNat]?).getD 0)
    avgBlockedTime := avgPhase data.blocked
    avgConnectingTime := avgPhase data.connecting
    avgSendingTime := avgPhase data.sending
    avgWaitingTime := avgPhase data.waiting
    avgReceivingTime := avgPhase data.receiving
    totalDataReceivedKB := jsRound ((data.globalDataReceived.getD 0) / 1024)
    totalDataSentKB := jsRound ((data.globalDataSent.getD 0) / 1024)
    requestsPerSecond :=
      (jsDivOpt data.requests.length testDuration).map jsToFixed2
    peakRequestRate :=
      (jsDivOpt data.requests.length testDuration).map
        (fun q => (jsRound (q * 10) : ℚ) / 10)
    responseTimeAtPeak := responseTimeAtPeak
    maxLoadLevel := maxLoadLevel }

end K6.Exporter

namespace K6.ParserScript

/-! Shallow embedding of the per-endpoint parser script
    (src/unnamed/part_002). -/

/-- One pushed sample entry of the parser script: value and time only. -/
structure VEntry where
  value : ℚ
  time : ℚ
deriving DecidableEq

/-- One pushed check entry of the parser script; the check tag may be
    absent. -/
structure VCheck where
  value : ℚ
  time : ℚ
  check : Option String
deriving DecidableEq

/-- The per-endpoint accumulation object of the parser script. -/
structure Bucket where
  requests : List VEntry := []
  durations : List VEntry := []
  checks : List VCheck := []
  blocked : List VEntry := []
  connecting : List VEntry := []
  sending : List VEntry := []
  waiting : List VEntry := []
  receiving : List VEntry := []
deriving DecidableEq

open K6.Streaming (upsertWith lookupKey)

/-- The switch statement of the parser script routing one endpoint-tagged
    metric into its bucket list. -/
def routeMetric (m : Metric) (b : Bucket) : Bucket :=
  let e : VEntry := ⟨m.data.value, m.data.time⟩
  match m.metric with
  | "http_reqs" => { b with requests := b.requests ++ [e] }
  | "http_req_duration" => { b with durations := b.durations ++ [e] }
  | "checks" =>
    { b with checks := b.checks ++ [⟨m.data.value, m.data.time, m.data.tags.check⟩] }
  | "http_req_blocked" => { b with blocked := b.blocked ++ [e] }
  | "http_req_connecting" => { b with connecting := b.connecting ++ [e] }
  | "http_req_sending" => { b with sending := b.sending ++ [e] }
  | "http_req_waiting" => { b with waiting := b.waiting ++ [e] }
  | "http_req_receiving" => { b with receiving := b.receiving ++ [e] }
  | _ => b

/-- One iteration of the metrics.forEach body of the parser script: only
    metrics with a truthy endpoint tag are bucketed, everything else is
    ignored. -/
def parseStep (st : List (String × Bucket)) (m : Metric) :
    List (String × Bucket) :=
  if (tagTruthy m.data.tags.endpoint).isSome then
    let endpoint := (tagTruthy m.data.tags.endpoint).getD ""
    upsertWith st endpoint ({} : Bucket) (routeMetric m)
  else st

/-- The metrics array of the parser script: lines.map(JSON.parse) with no
    per-line recovery, so a single malformed line raises and the whole map
    fails. -/
def metricsOf (lines : List LineParse) : Option (List Metric) :=
  lines.mapM fun l =>
    match l with
    | .ok m => some m
    | .bad => none

/-- The statistics record of the parser script.  Every field computed from a
    possibly-empty list without a guard is an Option, with none standing for
    the NaN or Infinity the JavaScript produces there. -/
structure Stats where
  totalRequests : ℕ
  successRate : Option ℚ
  min : Option ℤ
  max : Option ℤ
  avg : Option ℤ
  median : Option ℤ
  p95 : Option ℤ
  p99 : Option ℤ
  blocked : Option ℤ
  connecting : Option ℤ
  sending : Option ℤ
  waiting : Option ℤ
  receiving : Option ℤ
deriving DecidableEq

/-- The unguarded timing-phase average of the parser script. -/
def avgPhase (l : List VEntry) : Option ℤ :=
  (jsDivOpt (l.map (·.value)).sum l.length).map jsRound

/-- The per-endpoint statistics block of the parser script, including the
    unguarded success-rate division. -/
def endpointStatsOf (data : Bucket) : Stats :=
  let durations := data.durations.map (·.value)
  let sortedDurations := jsSortNum durations
  let n := sortedDurations.length
  { totalRequests := data.requests.length
    successRate :=
      (jsDivOpt ((data.checks.filter (·.value = 1)).length : ℚ)
        (data.checks.length : ℚ)).map (fun q => jsToFixed1 (q * 100))
    min := (jsMin durations).map jsRound
    max := (jsMax durations).map jsRound
    avg := (jsDivOpt durations.sum durations.length).map jsRound
    median := (sortedDurations[n / 2]?).map jsRound
    p95 := (sortedDurations[(⌊(n : ℚ) * (95/100)⌋).toNat]?).map jsRound
    p99 := (sortedDurations[(⌊(n : ℚ) * (99/100)⌋).toNat]?).map jsRound
    blocked := avgPhase data.blocked
    connecting := avgPhase data.connecting
    sending := avgPhase data.sending
    waiting := avgPhase data.waiting
    receiving := avgPhase data.receiving }

/-- parseK6Results of the parser script: the unguarded line map followed by
    grouping and statistics; the outer catch turns the exception raised by
    any malformed line into a null result. -/
def parseK6Results (lines : List LineParse) :
    Option (List (String × Stats)) :=
  (metricsOf lines).map fun metrics =>
    (metrics.foldl parseStep []).map fun p => (p.1, endpointStatsOf p.2)

end K6.ParserScript

namespace K6.Results

/-! Shallow embedding of the per-endpoint statistics block of
    k6_tests/analyze-k6-results.js (lines 57-67): the p50/p90/p95/p99 values
    are read at index floor(n * k/100) of the ascending-sorted durations. -/

/-- The per-endpoint statistics of analyzeK6Results. -/
structure Stats where
  avg : Option ℚ
  p50 : Option ℚ
  p90 : Option ℚ
  p95 : Option ℚ
  p99 : Option ℚ
  min : Option ℚ
  max : Option ℚ
deriving DecidableEq

/-- The statistics block of the Object.keys(endpointStats).forEach loop of
    analyzeK6Results, from a bucket's collected durations (the source sorts
    in place, then indexes the sorted array directly with no rounding and no
    fallback). -/
def endpointStatsOf (durations0 : List ℚ) : Stats :=
  let durations := jsSortNum durations0
  let n := durations.length
  { avg := jsDivOpt durations.sum n
    p50 := durations[(⌊(n : ℚ) * (50/100)⌋).toNat]?
    p90 := durations[(⌊(n : ℚ) * (90/100)⌋).toNat]?
    p95 := durations[(⌊(n : ℚ) * (95/100)⌋).toNat]?
    p99 := durations[(⌊(n : ℚ) * (99/100)⌋).toNat]?
    min := jsMin durations
    max := jsMax durations }

end K6.Results

namespace K6.Writer

/-! Shallow embedding of the CSV report writer of the export script
    (createCSV and the create/append branch of exportToExcel).  File content
    is modelled as a list of characters.  The fields of a statistics row are
    carried as their rendered text, except totalRequests and maxLoadLevel,
    which are integers in the source (an array length and a maximum of
    parsed integers) and are rendered here by an explicit decimal
    printer. -/

/-- The decimal digit characters. -/
def digitChar : ℕ → Char
  | 0 => '0'
  | 1 => '1'
  | 2 => '2'
  | 3 => '3'
  | 4 => '4'
  | 5 => '5'
  | 6 => '6'
  | 7 => '7'
  | 8 => '8'
  | _ => '9'

/-- Decimal digits of a natural number, most significant first. -/
def natDigits (n : ℕ) : List Char :=
  if n < 10 then [digitChar n]
  else natDigits (n / 10) ++ [digitChar (n % 10)]
decreasing_by exact Nat.div_lt_self (by omega) (by omega)

/-- Decimal rendering of an integer, as JavaScript template interpolation
    prints an integral number. -/
def intRepr (z : ℤ) : List Char :=
  if z < 0 then '-' :: natDigits z.natAbs else natDigits z.toNat

/-- One field rendered for the CSV: double quotes around the interpolated
    text. -/
def quoteField (f : List Char) : List Char := '"' :: (f ++ ['"'])

/-- Array.prototype.join with a comma separator. -/
def joinComma : List (List Char) → List Char
  | [] => []
  | [f] => f
  | f :: fs => f ++ ',' :: joinComma fs

/-- Array.prototype.join with a newline separator. -/
def joinLines : List (List Char) → List Char
  | [] => []
  | [l] => l
  | l :: ls => l ++ '\n' :: joinLines ls

/-- One CSV line: every field double-quoted, then joined with commas. -/
def renderRow (fields : List (List Char)) : List Char :=
  joinComma (fields.map quoteField)

/-- The fixed header column names of createCSV. -/
def headerFields : List (List Char) :=
  ["Endpoint".data, "Date/Time".data, "Total Requests".data,
   "Success Rate (%)".data, "Min Response Time (ms)".data,
   "Max Response Time (ms)".data, "Avg Response Time (ms)".data,
   "Median Response Time (ms)".data, "P95 Response Time (ms)".data,
   "P99 Response Time (ms)".data, "Avg Blocked Time (ms)".data,
   "Avg Connecting Time (ms)".data, "Avg Sending Time (ms)".data,
   "Avg Waiting Time (ms)".data, "Avg Receiving Time (ms)".data,
   "Total Data Received (KB)".data, "Total Data Sent (KB)".data,
   "Requests Per Second".data, "Peak Request Rate (RPS)".data,
   "Response Time at Peak (ms)".data, "Max Load Level (VUs)".data]

/-- The header line of the CSV report. -/
def headerLine : List Char := renderRow headerFields

/-- One endpoint's statistics as consumed by the report writer: each field
    carries the text its value interpolates to, except the two definitionally
    integral fields. -/
structure StatsRow where
  endpoint : List Char
  dateTime : List Char
  totalRequests : ℕ
  successRate : List Char
  minResponseTime : List Char
  maxResponseTime : List Char
  avgResponseTime : List Char
  medianResponseTime : List Char
  p95ResponseTime : List Char
  p99ResponseTime : List Char
  avgBlockedTime : List Char
  avgConnectingTime : List Char
  avgSendingTime : List Char
  avgWaitingTime : List Char
  avgReceivingTime : List Char
  totalDataReceivedKB : List Char
  totalDataSentKB : List Char
  requestsPerSecond : List Char
  peakRequestRate : List Char
  responseTimeAtPeak : List Char
  maxLoadLevel : ℤ
deriving DecidableEq

/-- The field list of one data row, in the fixed column order shared by
    createCSV and the append branch of exportToExcel (the source repeats the
    same 21-element array literal in both places). -/
def rowFields (s : StatsRow) : List (List Char) :=
  [s.endpoint, s.dateTime, natDigits s.totalRequests, s.successRate,
   s.minResponseTime, s.maxResponseTime, s.avgResponseTime,
   s.medianResponseTime, s.p95ResponseTime, s.p99ResponseTime,
   s.avgBlockedTime, s.avgConnectingTime, s.avgSendingTime,
   s.avgWaitingTime, s.avgReceivingTime, s.totalDataReceivedKB,
   s.totalDataSentKB, s.requestsPerSecond, s.peakRequestRate,
   s.responseTimeAtPeak, intRepr s.maxLoadLevel]

/-- One rendered data row. -/
def rowLine (s : StatsRow) : List Char := renderRow (rowFields s)

/-- createCSV of the export script: header plus one row per endpoint, joined
    with newlines. -/
def createCSV (stats : List StatsRow) : List Char :=
  joinLines (headerLine :: stats.map rowLine)

/-- The append branch of exportToExcel: the raw existing file content, a
    blank separator line, then the new rows without a header. -/
def appendContent (existing : List Char) (stats : List StatsRow) : List Char :=
  existing ++ '\n' :: '\n' :: joinLines (stats.map rowLine)

/-- The create/append choice of exportToExcel: the append branch runs only
    when append mode is on and the target file exists (existing = some
    content); in every other case the file is written from createCSV. -/
def exportCsvContent (appendMode : Bool) (existing : Option (List Char))
    (stats : List StatsRow) : List Char :=
  if appendMode then
    match existing with
    | some content => appendContent content stats
    | none => createCSV stats
  else createCSV stats

end K6.Writer

namespace K6.Cli

/-! Shallow embedding of the command-line entry points, for the error
    propagation policy.  The file system is a map from path to the per-line
    parse outcomes of the file's content; console.error calls are modelled
    as an emitted message list (console.log progress output is not
    tracked).  Node terminates with the code passed to process.exit when it
    is called, with a non-zero code when an exception escapes every try
    block (modelled 1), and with 0 when the script runs to completion.  The
    export and streaming analysis paths catch their errors and return
    normally; the workflow runner and the CSV-history helper call
    process.exit(1) from their error paths; the streaming analyzer's
    zero-argument usage path lists a directory outside any try block. -/

/-- The error messages the scripts print with console.error, plus the
    marker for an uncaught exception (node prints its stack trace). -/
inductive Msg where
  | usage
  | jsonFileNotFound (p : String)
  | outputDirNotFound (p : String)
  | errorParsingResults
  | failedToParseResults
  | errorExporting
  | fileNotFound (p : String)
  | errorAnalyzing
  | uncaughtException
  | workflowFailed
  | noCsvRow
  | appendFailed
deriving DecidableEq

/-- A file system: path to per-line parse outcomes of the content. -/
def FileSys : Type := String → Option (List LineParse)

/-- path.dirname: the text before the last slash, a dot when there is no
    slash, a slash for a file directly under the root. -/
def dirname (p : String) : String :=
  match p.data.reverse.dropWhile (· ≠ '/') with
  | [] => "."
  | _ :: rest => if rest = [] then "/" else String.mk rest.reverse

/-- exportToExcel of the export script.  A missing input file makes
    readFileSync throw inside parseK6Results, whose catch prints an error
    and returns null, upon which exportToExcel prints its failure message
    and returns; a write failure is caught by exportToExcel's own catch.
    Every path returns normally. -/
def exportToExcel (fs : FileSys) (jsonFilePath : String) (writeOk : Bool) :
    List Msg :=
  match fs jsonFilePath with
  | none => [.errorParsingResults, .failedToParseResults]
  | some _lines => if writeOk then [] else [.errorExporting]

/-- main of the export script.  Running under node, every branch returns
    normally, so the process exit code is 0 in all of them. -/
def exporterMain (args : List String) (fs : FileSys) (writeOk : Bool) :
    ℕ × List Msg :=
  match args with
  | [] => (0, [.usage])
  | jsonFilePath :: rest =>
    let outputDir := (rest.head?).getD (dirname jsonFilePath)
    if (fs jsonFilePath).isNone then
      (0, [.jsonFileNotFound jsonFilePath])
    else if (fs outputDir).isNone then
      (0, [.outputDirNotFound outputDir])
    else
      (0, exportToExcel fs jsonFilePath writeOk)

/-- analyzeK6StreamingResults: its single try/catch swallows every error
    raised while reading, analyzing or writing the CSV. -/
def analyzeK6StreamingResults (fs : FileSys) (jsonFile : String)
    (writeOk : Bool) : List Msg :=
  match fs jsonFile with
  | none => [.errorAnalyzing]
  | some _lines => if writeOk then [] else [.errorAnalyzing]

/-- main of the streaming analyzer.  The zero-argument usage path calls
    fs.readdirSync on the test-results directory outside any try block, so
    when that directory is missing (resultDirListing = none) the exception
    is uncaught and node terminates with a non-zero exit code; when it
    succeeds the usage text and file listing are printed and main returns.
    With a file argument, a missing file prints the not-found message and
    returns, and every error inside the analysis is swallowed by its catch,
    so those branches exit 0. -/
def streamingMain (args : List String) (fs : FileSys)
    (resultDirListing : Option (List String)) (writeOk : Bool) :
    ℕ × List Msg :=
  match args with
  | [] =>
    match resultDirListing with
    | none => (1, [.uncaughtException])
    | some _files => (0, [.usage])
  | jsonFile :: _ =>
    if (fs jsonFile).isNone then
      (0, [.fileNotFound jsonFile])
    else
      (0, analyzeK6StreamingResults fs jsonFile writeOk)

/-- main of run_k6_complete_test.js together with the top-level help check.
    A help flag in process.argv prints the usage block and calls
    process.exit(0).  Otherwise the awaited steps run: step 1 throws when
    the working directory is not the k6_tests directory or when the k6
    script or the export script is missing; step 2 runs the k6 subprocess
    (external, abstracted to its success bit) and throws when its JSON
    output file was not created; step 3 runs the export subprocess.  Every
    failure reaches the single catch in main, which logs the failure and
    calls process.exit(1); otherwise the workflow finishes and the process
    exits 0. -/
def completeTestMain (argv : List String) (cwdHasK6Tests : Bool)
    (k6ScriptExists exportScriptExists : Bool)
    (k6RunOk k6OutputCreated exportOk : Bool) : ℕ × List Msg :=
  if argv.contains "--help" || argv.contains "-h" then (0, [.usage])
  else if !cwdHasK6Tests then (1, [.workflowFailed])
  else if !k6ScriptExists then (1, [.workflowFailed])
  else if !exportScriptExists then (1, [.workflowFailed])
  else if !k6RunOk then (1, [.workflowFailed])
  else if !k6OutputCreated then (1, [.workflowFailed])
  else if !exportOk then (1, [.workflowFailed])
  else (0, [])

/-- The CSV-history helper script: with no CSV row argument it prints an
    error and calls process.exit(1); a failure while creating the directory
    or file or appending the row is caught and also calls process.exit(1);
    on success the row is appended and the process exits 0. -/
def csvHistoryMain (csvRow : Option String) (writeOk : Bool) :
    ℕ × List Msg :=
  match csvRow with
  | none => (1, [.noCsvRow])
  | some _row => if writeOk then (0, []) else (1, [.appendFailed])

end K6.Cli

namespace K6

/-! Concrete inputs used by the claim theorems. -/

/-- One http_reqs line tagged with endpoint A. -/
def reqLineA : Metric :=
  { metric := "http_reqs"
    data := { value := 1, time := 0, tags := { endpoint := some "A" } } }

/-- One http_req_duration line tagged with endpoint A, value 100. -/
def durLineA100 : Metric :=
  { metric := "http_req_duration"
    data := { value := 100, time := 0, tags := { endpoint := some "A" } } }

/-- One http_req_duration line tagged with endpoint A, value 200. -/
def durLineA200 : Metric :=
  { metric := "http_req_duration"
    data := { value := 200, time := 1000, tags := { endpoint := some "A" } } }

/-- One checks line carrying both a check name with the separator and an
    explicit endpoint tag. -/
def checksBothTags : Metric :=
  { metric := "checks"
    data := { value := 1, time := 0
              tags := { endpoint := some "Apps", check := some "Foo - ok" } } }

/-- One http_req_duration line tagged endpoint Apps with value 123.4. -/
def durLineApps : Metric :=
  { metric := "http_req_duration"
    data := { value := 617/5, time := 0, tags := { endpoint := some "Apps" } } }

/-- An exporter bucket holding exactly the durations 100 and 200. -/
def expBucket100200 : Exporter.Bucket :=
  { durations := [⟨100, 0, {}⟩, ⟨200, 1000, {}⟩] }

/-- An exporter bucket holding one duration sample and nothing else. -/
def expBucketSingle : Exporter.Bucket :=
  { durations := [⟨40, 0, {}⟩] }

/-- A parser-script bucket holding one duration sample and nothing else. -/
def parBucketSingle : ParserScript.Bucket :=
  { durations := [⟨40, 0⟩] }

/-- A parser-script bucket holding exactly the durations 100 and 200. -/
def parBucket100200 : ParserScript.Bucket :=
  { durations := [⟨100, 0⟩, ⟨200, 1000⟩] }

/-- A report-writer statistics row with fixed rendered fields. -/
def sampleStatsRow : Writer.StatsRow :=
  { endpoint := "A".data
    dateTime := "2025-01-01T00:00:00.000Z".data
    totalRequests := 2
    successRate := "100.0".data
    minResponseTime := "100".data
    maxResponseTime := "200".data
    avgResponseTime := "150".data
    medianResponseTime := "200".data
    p95ResponseTime := "200".data
    p99ResponseTime := "200".data
    avgBlockedTime := "0".data
    avgConnectingTime := "0".data
    avgSendingTime := "0".data
    avgWaitingTime := "0".data
    avgReceivingTime := "0".data
    totalDataReceivedKB := "0".data
    totalDataSentKB := "0".data
    requestsPerSecond := "2.00".data
    peakRequestRate := "2".data
    responseTimeAtPeak := "0".data
    maxLoadLevel := 0 }

/-- One pre-existing data row of a report file, used as the R original rows
    in the append-mode scenario. -/
def sampleOldRow : List Char :=
  Writer.rowLine { sampleStatsRow with endpoint := "Old".data }

/-! Generic facts about the JavaScript model used by the claim proofs. -/

theorem foldl_min_le_init (xs : List ℚ) (a : ℚ) : xs.foldl min a ≤ a := by
  induction xs generalizing a with
  | nil => simp
  | cons x xs ih => exact le_trans (ih (min a x)) (min_le_left a x)

theorem foldl_min_le_mem {x : ℚ} {xs : List ℚ} (a : ℚ) (hx : x ∈ xs) :
    xs.foldl min a ≤ x := by
  induction xs generalizing a with
  | nil => cases hx
  | cons y ys ih =>
    rcases List.mem_cons.mp hx with rfl | h
    · exact le_trans (foldl_min_le_init ys (min a x)) (min_le_right a x)
    · exact ih _ h

theorem init_le_foldl_max (xs : List ℚ) (a : ℚ) : a ≤ xs.foldl max a := by
  induction xs generalizing a with
  | nil => simp
  | cons x xs ih => exact le_trans (le_max_left a x) (ih (max a x))

theorem mem_le_foldl_max {x : ℚ} {xs : List ℚ} (a : ℚ) (hx : x ∈ xs) :
    x ≤ xs.foldl max a := by
  induction xs generalizing a with
  | nil => cases hx
  | cons y ys ih =>
    rcases List.mem_cons.mp hx with rfl | h
    · exact le_trans (le_max_right a x) (init_le_foldl_max ys (max a x))
    · exact ih _ h

/-- Math.min over a non-empty list bounds every member from below. -/
theorem jsMin_le {l : List ℚ} {m x : ℚ} (hm : jsMin l = some m) (hx : x ∈ l) :
    m ≤ x := by
  cases l with
  | nil => cases hx
  | cons y ys =>
    simp only [jsMin, Option.some.injEq] at hm
    subst hm
    rcases List.mem_cons.mp hx with rfl | h
    · exact foldl_min_le_init ys x
    · exact foldl_min_le_mem y h

/-- Math.max over a non-empty list bounds every member from above. -/
theorem le_jsMax {l : List ℚ} {M x : ℚ} (hM : jsMax l = some M) (hx : x ∈ l) :
    x ≤ M := by
  cases l with
  | nil => cases hx
  | cons y ys =>
    simp only [jsMax, Option.some.injEq] at hM
    subst hM
    rcases List.mem_cons.mp hx with rfl | h
    · exact init_le_foldl_max ys x
    · exact mem_le_foldl_max y h

theorem jsMin_isSome {l : List ℚ} (h : l ≠ []) : (jsMin l).isSome := by
  cases l with
  | nil => exact absurd rfl h
  | cons y ys => simp [jsMin]

theorem jsMax_isSome {l : List ℚ} (h : l ≠ []) : (jsMax l).isSome := by
  cases l with
  | nil => exact absurd rfl h
  | cons y ys => simp [jsMax]

theorem jsSortNum_perm (l : List ℚ) : List.Perm (jsSortNum l) l :=
  List.perm_insertionSort _ l

theorem jsSortNum_length (l : List ℚ) : (jsSortNum l).length = l.length :=
  (jsSortNum_perm l).length_eq

theorem jsSortNum_sorted (l : List ℚ) : (jsSortNum l).Sorted (· ≤ ·) :=
  List.sorted_insertionSort _ l

theorem jsSortNum_mem {l : List ℚ} {x : ℚ} (h : x ∈ jsSortNum l) : x ∈ l :=
  (jsSortNum_perm l).mem_iff.mp h

/-- Sorting an already ascending list is the identity, so the double sort in
    the streaming analyzer collapses. -/
theorem jsSortNum_idem (l : List ℚ) : jsSortNum (jsSortNum l) = jsSortNum l :=
  List.Sorted.insertionSort_eq (jsSortNum_sorted l)

/-- Elements of the sorted list are non-decreasing in the index. -/
theorem jsSortNum_getElem_mono (l : List ℚ) {i j : ℕ} (hij : i ≤ j)
    (hj : j < (jsSortNum l).length) :
    (jsSortNum l).get ⟨i, lt_of_le_of_lt hij hj⟩ ≤
      (jsSortNum l).get ⟨j, hj⟩ :=
  List.Sorted.rel_get_of_le (jsSortNum_sorted l) (by exact hij)

/-- Math.round is monotone. -/
theorem jsRound_mono {q r : ℚ} (h : q ≤ r) : jsRound q ≤ jsRound r :=
  Int.floor_le_floor (by linarith)

/-- The clamped nearest-rank ceiling index stays inside a non-empty list. -/
theorem ceilIdx_lt {n : ℕ} {k : ℚ} (hn : 0 < n) (hk : k ≤ 100) :
    (max 0 (⌈k / 100 * (n : ℚ)⌉ - 1)).toNat < n := by
  have h1 : k / 100 * (n : ℚ) ≤ (n : ℚ) := by
    have hn0 : (0 : ℚ) ≤ (n : ℚ) := by positivity
    nlinarith
  have h2 : ⌈k / 100 * (n : ℚ)⌉ ≤ (n : ℤ) := by
    exact_mod_cast Int.ceil_le.mpr (by exact_mod_cast h1)
  omega

/-- The nearest-rank ceiling index is monotone in the percentile. -/
theorem ceilIdx_mono {n : ℕ} {k₁ k₂ : ℚ} (h : k₁ ≤ k₂) :
    (max 0 (⌈k₁ / 100 * (n : ℚ)⌉ - 1)).toNat ≤
      (max 0 (⌈k₂ / 100 * (n : ℚ)⌉ - 1)).toNat := by
  have hn0 : (0 : ℚ) ≤ (n : ℚ) := by positivity
  have : ⌈k₁ / 100 * (n : ℚ)⌉ ≤ ⌈k₂ / 100 * (n : ℚ)⌉ := by
    apply Int.ceil_le_ceil
    nlinarith
  omega

/-- The floor index n * b with 0 ≤ b < 1 stays inside a non-empty list. -/
theorem floorIdx_lt {n : ℕ} {b : ℚ} (hn : 0 < n) (hb0 : 0 ≤ b) (hb : b < 1) :
    (⌊(n : ℚ) * b⌋).toNat < n := by
  have h1 : (n : ℚ) * b < (n : ℚ) := by
    have hn0 : (0 : ℚ) < (n : ℚ) := by exact_mod_cast hn
    nlinarith
  have h2 : ⌊(n : ℚ) * b⌋ < (n : ℤ) := Int.floor_lt.mpr (by exact_mod_cast h1)
  have h3 : (0 : ℤ) ≤ ⌊(n : ℚ) * b⌋ := Int.floor_nonneg.mpr (by positivity)
  omega

/-- The floor index is monotone in the fraction. -/
theorem floorIdx_mono {n : ℕ} {a b : ℚ} (hab : a ≤ b) :
    (⌊(n : ℚ) * a⌋).toNat ≤ (⌊(n : ℚ) * b⌋).toNat := by
  have hn0 : (0 : ℚ) ≤ (n : ℚ) := by positivity
  have : ⌊(n : ℚ) * a⌋ ≤ ⌊(n : ℚ) * b⌋ := Int.floor_le_floor (by nlinarith)
  omega

/-- The halving median index is below the 95 percent floor index. -/
theorem halfIdx_le_floorIdx (n : ℕ) : n / 2 ≤ (⌊(n : ℚ) * (95/100)⌋).toNat := by
  have h1 : ((n / 2 : ℕ) : ℚ) ≤ (n : ℚ) * (95/100) := by
    have := Nat.cast_div_le (α := ℚ) (m := n) (n := 2)
    have hn0 : (0 : ℚ) ≤ (n : ℚ) := by positivity
    nlinarith
  have h2 : ((n / 2 : ℕ) : ℤ) ≤ ⌊(n : ℚ) * (95/100)⌋ := by
    apply Int.le_floor.mpr
    exact_mod_cast h1
  omega

/-- Two reads of a sorted list at ordered indices yield ordered values that
    are members of the original list. -/
theorem jsSortNum_read_mono (l : List ℚ) {i j : ℕ} (hij : i ≤ j)
    (hj : j < (jsSortNum l).length) :
    ∃ vi vj, (jsSortNum l)[i]? = some vi ∧ (jsSortNum l)[j]? = some vj ∧
      vi ≤ vj ∧ vi ∈ l ∧ vj ∈ l := by
  have hi : i < (jsSortNum l).length := lt_of_le_of_lt hij hj
  refine ⟨(jsSortNum l)[i], (jsSortNum l)[j],
    List.getElem?_eq_getElem hi, List.getElem?_eq_getElem hj, ?_, ?_, ?_⟩
  · have h := jsSortNum_getElem_mono l hij hj
    simpa [List.get_eq_getElem] using h
  · exact jsSortNum_mem (List.getElem_mem hi)
  · exact jsSortNum_mem (List.getElem_mem hj)

/-- On a non-empty input, calculatePercentile reads the sorted list at the
    clamped ceiling index. -/
theorem calculatePercentile_eq (values : List ℚ) (k : ℚ) (hv : values ≠ []) :
    Streaming.calculatePercentile values k =
      (jsSortNum values)[(max 0 (⌈k / 100 * (values.length : ℚ)⌉ - 1)).toNat]? := by
  have h0 : values.length ≠ 0 := fun h => hv (List.length_eq_zero.mp h)
  simp only [Streaming.calculatePercentile, if_neg h0, jsSortNum_length]

theorem jsSortNum_ne_nil {l : List ℚ} (h : l ≠ []) : jsSortNum l ≠ [] := by
  intro hs
  apply h
  have := jsSortNum_length l
  rw [hs] at this
  exact List.length_eq_zero.mp this.symm

theorem mem_jsSortNum {l : List ℚ} {x : ℚ} (h : x ∈ l) : x ∈ jsSortNum l :=
  (jsSortNum_perm l).mem_iff.mpr h

section RatKernelEval

/- Batteries marks the rational field operations irreducible; making them
   semireducible again lets `decide` evaluate the embedded scripts on
   concrete inputs through the kernel. -/
attribute [local semireducible] Rat.add Rat.mul Rat.inv Rat.sub

/-! The claim theorems. -/

/-- C10: calculateAverage and calculatePercentile in analyze-k6-streaming.js
    are total on numeric lists: both return the sentinel 0 on the empty list,
    and on a non-empty list with percentile 0 < k ≤ 100 the percentile
    result is defined and is an element of the input list. -/
theorem c10_stats_total :
    Streaming.calculateAverage [] = 0 ∧
    (∀ k : ℚ, Streaming.calculatePercentile [] k = some 0) ∧
    (∀ (values : List ℚ) (k : ℚ), values ≠ [] → 0 < k → k ≤ 100 →
      ∃ v, Streaming.calculatePercentile values k = some v ∧ v ∈ values) := by
  refine ⟨rfl, fun k => rfl, fun values k hv _hk0 hk => ?_⟩
  have hn : 0 < values.length := List.length_pos.mpr hv
  have hlt : (max 0 (⌈k / 100 * (values.length : ℚ)⌉ - 1)).toNat <
      (jsSortNum values).length := by
    rw [jsSortNum_length]
    exact ceilIdx_lt hn hk
  rw [calculatePercentile_eq values k hv]
  obtain ⟨vi, vj, hvi, hvj, _hle, _hmi, hmj⟩ :=
    jsSortNum_read_mono values (le_refl _) hlt
  exact ⟨vj, hvj, hmj⟩

/-- C10 witness: the theorem applied at the singleton list holding 5 and
    percentile 95. -/
theorem c10_stats_total_witness :
    ∃ v, Streaming.calculatePercentile [5] 95 = some v ∧ v ∈ [(5 : ℚ)] :=
  c10_stats_total.2.2 [5] 95 (by decide) (by norm_num) (by norm_num)

theorem streaming_stats_chain (d : List ℚ) (hd : d ≠ []) :
    ∃ m a b c e M,
      (Streaming.endpointStatsOf d).min = some m ∧
      (Streaming.endpointStatsOf d).p50 = some a ∧
      (Streaming.endpointStatsOf d).p90 = some b ∧
      (Streaming.endpointStatsOf d).p95 = some c ∧
      (Streaming.endpointStatsOf d).p99 = some e ∧
      (Streaming.endpointStatsOf d).max = some M ∧
      m ≤ a ∧ a ≤ b ∧ b ≤ c ∧ c ≤ e ∧ e ≤ M := by
  have hn : 0 < d.length := List.length_pos.mpr hd
  have hs : jsSortNum d ≠ [] := jsSortNum_ne_nil hd
  have h50 := calculatePercentile_eq (jsSortNum d) 50 hs
  have h90 := calculatePercentile_eq (jsSortNum d) 90 hs
  have h95 := calculatePercentile_eq (jsSortNum d) 95 hs
  have h99 := calculatePercentile_eq (jsSortNum d) 99 hs
  rw [jsSortNum_idem, jsSortNum_length] at h50 h90 h95 h99
  have hb90 : (max 0 (⌈(90:ℚ) / 100 * (d.length : ℚ)⌉ - 1)).toNat <
      (jsSortNum d).length := by
    rw [jsSortNum_length]; exact ceilIdx_lt hn (by norm_num)
  have hb95 : (max 0 (⌈(95:ℚ) / 100 * (d.length : ℚ)⌉ - 1)).toNat <
      (jsSortNum d).length := by
    rw [jsSortNum_length]; exact ceilIdx_lt hn (by norm_num)
  have hb99 : (max 0 (⌈(99:ℚ) / 100 * (d.length : ℚ)⌉ - 1)).toNat <
      (jsSortNum d).length := by
    rw [jsSortNum_length]; exact ceilIdx_lt hn (by norm_num)
  obtain ⟨v50, v90, e50, e90, le5090, mem50, _⟩ :=
    jsSortNum_read_mono d (ceilIdx_mono (by norm_num : (50:ℚ) ≤ 90)) hb90
  obtain ⟨v90a, v95, e90a, e95, le9095, _, _⟩ :=
    jsSortNum_read_mono d (ceilIdx_mono (by norm_num : (90:ℚ) ≤ 95)) hb95
  obtain ⟨v95a, v99, e95a, e99, le9599, _, mem99⟩ :=
    jsSortNum_read_mono d (ceilIdx_mono (by norm_num : (95:ℚ) ≤ 99)) hb99
  have hv90 : v90a = v90 := Option.some.inj (e90a.symm.trans e90)
  have hv95 : v95a = v95 := Option.some.inj (e95a.symm.trans e95)
  subst hv90 hv95
  obtain ⟨m0, hm0⟩ := Option.isSome_iff_exists.mp (jsMin_isSome hs)
  obtain ⟨M0, hM0⟩ := Option.isSome_iff_exists.mp (jsMax_isSome hs)
  refine ⟨m0, v50, v90a, v95a, v99, M0, ?_, ?_, ?_, ?_, ?_, ?_,
    ?_, le5090, le9095, le9599, ?_⟩
  · simpa [Streaming.endpointStatsOf] using hm0
  · simp only [Streaming.endpointStatsOf]; rw [h50]; exact e50
  · simp only [Streaming.endpointStatsOf]; rw [h90]; exact e90
  · simp only [Streaming.endpointStatsOf]; rw [h95]; exact e95
  · simp only [Streaming.endpointStatsOf]; rw [h99]; exact e99
  · simpa [Streaming.endpointStatsOf] using hM0
  · exact jsMin_le hm0 (mem_jsSortNum mem50)
  · exact le_jsMax hM0 (mem_jsSortNum mem99)

theorem exporter_stats_chain (now ep : String) (bkt : Exporter.Bucket)
    (hdur : bkt.durations ≠ []) :
    ∃ m M,
      (Exporter.calculateEndpointStats now ep bkt).minResponseTime = some m ∧
      (Exporter.calculateEndpointStats now ep bkt).maxResponseTime = some M ∧
      m ≤ (Exporter.calculateEndpointStats now ep bkt).medianResponseTime ∧
      (Exporter.calculateEndpointStats now ep bkt).medianResponseTime ≤
        (Exporter.calculateEndpointStats now ep bkt).p95ResponseTime ∧
      (Exporter.calculateEndpointStats now ep bkt).p95ResponseTime ≤
        (Exporter.calculateEndpointStats now ep bkt).p99ResponseTime ∧
      (Exporter.calculateEndpointStats now ep bkt).p99ResponseTime ≤ M := by
  have hd : bkt.durations.map (·.value) ≠ [] := by
    simpa [List.map_eq_nil_iff] using hdur
  have hn : 0 < (jsSortNum (bkt.durations.map (·.value))).length := by
    rw [jsSortNum_length]
    exact List.length_pos.mpr hd
  have hb99 : (⌊((jsSortNum (bkt.durations.map (·.value))).length : ℚ) * (99/100)⌋).toNat <
      (jsSortNum (bkt.durations.map (·.value))).length :=
    floorIdx_lt hn (by norm_num) (by norm_num)
  have hb95 : (⌊((jsSortNum (bkt.durations.map (·.value))).length : ℚ) * (95/100)⌋).toNat <
      (jsSortNum (bkt.durations.map (·.value))).length :=
    lt_of_le_of_lt (floorIdx_mono (by norm_num)) hb99
  obtain ⟨vM, v95, eM, e95, leM95, memM, _⟩ :=
    jsSortNum_read_mono (bkt.durations.map (·.value))
      (halfIdx_le_floorIdx _) hb95
  obtain ⟨v95a, v99, e95a, e99, le9599, _, mem99⟩ :=
    jsSortNum_read_mono (bkt.durations.map (·.value))
      (floorIdx_mono (by norm_num : (95:ℚ)/100 ≤ 99/100)) hb99
  have hv95 : v95a = v95 := Option.some.inj (e95a.symm.trans e95)
  subst hv95
  obtain ⟨m0, hm0⟩ := Option.isSome_iff_exists.mp (jsMin_isSome hd)
  obtain ⟨M0, hM0⟩ := Option.isSome_iff_exists.mp (jsMax_isSome hd)
  refine ⟨jsRound m0, jsRound M0, ?_, ?_, ?_, ?_, ?_, ?_⟩
  · simp only [Exporter.calculateEndpointStats]
    rw [hm0]
    rfl
  · simp only [Exporter.calculateEndpointStats]
    rw [hM0]
    rfl
  · simp only [Exporter.calculateEndpointStats]
    rw [eM, Option.getD_some]
    exact jsRound_mono (jsMin_le hm0 memM)
  · simp only [Exporter.calculateEndpointStats]
    rw [eM, e95, Option.getD_some, Option.getD_some]
    exact jsRound_mono leM95
  · simp only [Exporter.calculateEndpointStats]
    rw [e95, e99, Option.getD_some, Option.getD_some]
    exact jsRound_mono le9599
  · simp only [Exporter.calculateEndpointStats]
    rw [e99, Option.getD_some]
    exact jsRound_mono (le_jsMax hM0 mem99)

theorem parser_stats_chain (bkt : ParserScript.Bucket)
    (hdur : bkt.durations ≠ []) :
    ∃ m md c e M,
      (ParserScript.endpointStatsOf bkt).min = some m ∧
      (ParserScript.endpointStatsOf bkt).median = some md ∧
      (ParserScript.endpointStatsOf bkt).p95 = some c ∧
      (ParserScript.endpointStatsOf bkt).p99 = some e ∧
      (ParserScript.endpointStatsOf bkt).max = some M ∧
      m ≤ md ∧ md ≤ c ∧ c ≤ e ∧ e ≤ M := by
  have hd : bkt.durations.map (·.value) ≠ [] := by
    simpa [List.map_eq_nil_iff] using hdur
  have hn : 0 < (jsSortNum (bkt.durations.map (·.value))).length := by
    rw [jsSortNum_length]
    exact List.length_pos.mpr hd
  have hb99 : (⌊((jsSortNum (bkt.durations.map (·.value))).length : ℚ) * (99/100)⌋).toNat <
      (jsSortNum (bkt.durations.map (·.value))).length :=
    floorIdx_lt hn (by norm_num) (by norm_num)
  have hb95 : (⌊((jsSortNum (bkt.durations.map (·.value))).length : ℚ) * (95/100)⌋).toNat <
      (jsSortNum (bkt.durations.map (·.value))).length :=
    lt_of_le_of_lt (floorIdx_mono (by norm_num)) hb99
  obtain ⟨vM, v95, eM, e95, leM95, memM, _⟩ :=
    jsSortNum_read_mono (bkt.durations.map (·.value))
      (halfIdx_le_floorIdx _) hb95
  obtain ⟨v95a, v99, e95a, e99, le9599, _, mem99⟩ :=
    jsSortNum_read_mono (bkt.durations.map (·.value))
      (floorIdx_mono (by norm_num : (95:ℚ)/100 ≤ 99/100)) hb99
  have hv95 : v95a = v95 := Option.some.inj (e95a.symm.trans e95)
  subst hv95
  obtain ⟨m0, hm0⟩ := Option.isSome_iff_exists.mp (jsMin_isSome hd)
  obtain ⟨M0, hM0⟩ := Option.isSome_iff_exists.mp (jsMax_isSome hd)
  refine ⟨jsRound m0, jsRound vM, jsRound v95a, jsRound v99, jsRound M0,
    ?_, ?_, ?_, ?_, ?_, ?_, ?_, ?_, ?_⟩
  · simp only [ParserScript.endpointStatsOf]
    rw [hm0]
    rfl
  · simp only [ParserScript.endpointStatsOf]
    rw [eM]
    rfl
  · simp only [ParserScript.endpointStatsOf]
    rw [e95]
    rfl
  · simp only [ParserScript.endpointStatsOf]
    rw [e99]
    rfl
  · simp only [ParserScript.endpointStatsOf]
    rw [hM0]
    rfl
  · exact jsRound_mono (jsMin_le hm0 memM)
  · exact jsRound_mono leM95
  · exact jsRound_mono le9599
  · exact jsRound_mono (le_jsMax hM0 mem99)

theorem results_stats_chain (d : List ℚ) (hd : d ≠ []) :
    ∃ m a b c e M,
      (Results.endpointStatsOf d).min = some m ∧
      (Results.endpointStatsOf d).p50 = some a ∧
      (Results.endpointStatsOf d).p90 = some b ∧
      (Results.endpointStatsOf d).p95 = some c ∧
      (Results.endpointStatsOf d).p99 = some e ∧
      (Results.endpointStatsOf d).max = some M ∧
      m ≤ a ∧ a ≤ b ∧ b ≤ c ∧ c ≤ e ∧ e ≤ M := by
  have hs : jsSortNum d ≠ [] := jsSortNum_ne_nil hd
  have hn : 0 < (jsSortNum d).length := List.length_pos.mpr hs
  have hb99 : (⌊((jsSortNum d).length : ℚ) * (99/100)⌋).toNat <
      (jsSortNum d).length := floorIdx_lt hn (by norm_num) (by norm_num)
  have hb90 : (⌊((jsSortNum d).length : ℚ) * (90/100)⌋).toNat <
      (jsSortNum d).length := lt_of_le_of_lt (floorIdx_mono (by norm_num)) hb99
  have hb95 : (⌊((jsSortNum d).length : ℚ) * (95/100)⌋).toNat <
      (jsSortNum d).length := lt_of_le_of_lt (floorIdx_mono (by norm_num)) hb99
  obtain ⟨v50, v90, e50, e90, le5090, mem50, _⟩ :=
    jsSortNum_read_mono d (floorIdx_mono (by norm_num : (50:ℚ)/100 ≤ 90/100)) hb90
  obtain ⟨v90a, v95, e90a, e95, le9095, _, _⟩ :=
    jsSortNum_read_mono d (floorIdx_mono (by norm_num : (90:ℚ)/100 ≤ 95/100)) hb95
  obtain ⟨v95a, v99, e95a, e99, le9599, _, mem99⟩ :=
    jsSortNum_read_mono d (floorIdx_mono (by norm_num : (95:ℚ)/100 ≤ 99/100)) hb99
  have hv90 : v90a = v90 := Option.some.inj (e90a.symm.trans e90)
  have hv95 : v95a = v95 := Option.some.inj (e95a.symm.trans e95)
  subst hv90 hv95
  obtain ⟨m0, hm0⟩ := Option.isSome_iff_exists.mp (jsMin_isSome hs)
  obtain ⟨M0, hM0⟩ := Option.isSome_iff_exists.mp (jsMax_isSome hs)
  refine ⟨m0, v50, v90a, v95a, v99, M0, ?_, ?_, ?_, ?_, ?_, ?_,
    ?_, le5090, le9095, le9599, ?_⟩
  · simpa [Results.endpointStatsOf] using hm0
  · simp only [Results.endpointStatsOf]; exact e50
  · simp only [Results.endpointStatsOf]; exact e90
  · simp only [Results.endpointStatsOf]; exact e95
  · simp only [Results.endpointStatsOf]; exact e99
  · simpa [Results.endpointStatsOf] using hM0
  · exact jsMin_le hm0 (mem_jsSortNum mem50)
  · exact le_jsMax hM0 (mem_jsSortNum mem99)

/-- C2: for every non-empty duration sequence, the per-endpoint summary of
    every script satisfies the ordering min ≤ median ≤ (p90 ≤) p95 ≤ p99 ≤
    max: the streaming analyzer, the Excel exporter, the parser script and
    the results analyzer. -/
theorem c2_summary_ordering :
    (∀ d : List ℚ, d ≠ [] →
      ∃ m a b c e M,
        (Streaming.endpointStatsOf d).min = some m ∧
        (Streaming.endpointStatsOf d).p50 = some a ∧
        (Streaming.endpointStatsOf d).p90 = some b ∧
        (Streaming.endpointStatsOf d).p95 = some c ∧
        (Streaming.endpointStatsOf d).p99 = some e ∧
        (Streaming.endpointStatsOf d).max = some M ∧
        m ≤ a ∧ a ≤ b ∧ b ≤ c ∧ c ≤ e ∧ e ≤ M) ∧
    (∀ (now ep : String) (bkt : Exporter.Bucket), bkt.durations ≠ [] →
      ∃ m M,
        (Exporter.calculateEndpointStats now ep bkt).minResponseTime = some m ∧
        (Exporter.calculateEndpointStats now ep bkt).maxResponseTime = some M ∧
        m ≤ (Exporter.calculateEndpointStats now ep bkt).medianResponseTime ∧
        (Exporter.calculateEndpointStats now ep bkt).medianResponseTime ≤
          (Exporter.calculateEndpointStats now ep bkt).p95ResponseTime ∧
        (Exporter.calculateEndpointStats now ep bkt).p95ResponseTime ≤
          (Exporter.calculateEndpointStats now ep bkt).p99ResponseTime ∧
        (Exporter.calculateEndpointStats now ep bkt).p99ResponseTime ≤ M) ∧
    (∀ bkt : ParserScript.Bucket, bkt.durations ≠ [] →
      ∃ m md c e M,
        (ParserScript.endpointStatsOf bkt).min = some m ∧
        (ParserScript.endpointStatsOf bkt).median = some md ∧
        (ParserScript.endpointStatsOf bkt).p95 = some c ∧
        (ParserScript.endpointStatsOf bkt).p99 = some e ∧
        (ParserScript.endpointStatsOf bkt).max = some M ∧
        m ≤ md ∧ md ≤ c ∧ c ≤ e ∧ e ≤ M) ∧
    (∀ d : List ℚ, d ≠ [] →
      ∃ m a b c e M,
        (Results.endpointStatsOf d).min = some m ∧
        (Results.endpointStatsOf d).p50 = some a ∧
        (Results.endpointStatsOf d).p90 = some b ∧
        (Results.endpointStatsOf d).p95 = some c ∧
        (Results.endpointStatsOf d).p99 = some e ∧
        (Results.endpointStatsOf d).max = some M ∧
        m ≤ a ∧ a ≤ b ∧ b ≤ c ∧ c ≤ e ∧ e ≤ M) :=
  ⟨streaming_stats_chain, exporter_stats_chain, parser_stats_chain,
    results_stats_chain⟩

/-- C2 witness: the four ordering chains applied at concrete singleton
    inputs. -/
theorem c2_summary_ordering_witness :
    (∃ m a b c e M,
      (Streaming.endpointStatsOf [3]).min = some m ∧
      (Streaming.endpointStatsOf [3]).p50 = some a ∧
      (Streaming.endpointStatsOf [3]).p90 = some b ∧
      (Streaming.endpointStatsOf [3]).p95 = some c ∧
      (Streaming.endpointStatsOf [3]).p99 = some e ∧
      (Streaming.endpointStatsOf [3]).max = some M ∧
      m ≤ a ∧ a ≤ b ∧ b ≤ c ∧ c ≤ e ∧ e ≤ M) ∧
    (∃ m M,
      (Exporter.calculateEndpointStats "T" "E" expBucketSingle).minResponseTime = some m ∧
      (Exporter.calculateEndpointStats "T" "E" expBucketSingle).maxResponseTime = some M ∧
      m ≤ (Exporter.calculateEndpointStats "T" "E" expBucketSingle).medianResponseTime ∧
      (Exporter.calculateEndpointStats "T" "E" expBucketSingle).medianResponseTime ≤
        (Exporter.calculateEndpointStats "T" "E" expBucketSingle).p95ResponseTime ∧
      (Exporter.calculateEndpointStats "T" "E" expBucketSingle).p95ResponseTime ≤
        (Exporter.calculateEndpointStats "T" "E" expBucketSingle).p99ResponseTime ∧
      (Exporter.calculateEndpointStats "T" "E" expBucketSingle).p99ResponseTime ≤ M) ∧
    (∃ m md c e M,
      (ParserScript.endpointStatsOf parBucketSingle).min = some m ∧
      (ParserScript.endpointStatsOf parBucketSingle).median = some md ∧
      (ParserScript.endpointStatsOf parBucketSingle).p95 = some c ∧
      (ParserScript.endpointStatsOf parBucketSingle).p99 = some e ∧
      (ParserScript.endpointStatsOf parBucketSingle).max = some M ∧
      m ≤ md ∧ md ≤ c ∧ c ≤ e ∧ e ≤ M) ∧
    (∃ m a b c e M,
      (Results.endpointStatsOf [3]).min = some m ∧
      (Results.endpointStatsOf [3]).p50 = some a ∧
      (Results.endpointStatsOf [3]).p90 = some b ∧
      (Results.endpointStatsOf [3]).p95 = some c ∧
      (Results.endpointStatsOf [3]).p99 = some e ∧
      (Results.endpointStatsOf [3]).max = some M ∧
      m ≤ a ∧ a ≤ b ∧ b ≤ c ∧ c ≤ e ∧ e ≤ M) :=
  ⟨c2_summary_ordering.1 [3] (by decide),
   c2_summary_ordering.2.1 "T" "E" expBucketSingle (by decide),
   c2_summary_ordering.2.2.1 parBucketSingle (by decide),
   c2_summary_ordering.2.2.2 [3] (by decide)⟩

/-- C1 counterexample: on the ascending two-element sequence 100, 200 the
    documented nearest-rank index ceil(50/100 * 2) - 1 = 0 selects 100 for
    the median, but the exporter, the parser script and the results analyzer
    all return the element at their floor index, 200, so the nearest-rank
    formula is not used at every call site. -/
theorem c1_percentile_policy_counterexample :
    Spec.specNearestRank [100, 200] 50 = 100 ∧
    (Exporter.calculateEndpointStats "T" "E" expBucket100200).medianResponseTime = 200 ∧
    (ParserScript.endpointStatsOf parBucket100200).median = some 200 ∧
    (Results.endpointStatsOf [100, 200]).p50 = some 200 ∧
    (200 : ℚ) ≠ 100 := by
  refine ⟨by decide, by decide, by decide, by decide, by decide⟩

/-- C1 amended: only calculatePercentile in analyze-k6-streaming.js follows
    the nearest-rank policy of the spec; the median, p95 and p99 reads of
    the exporter and parser scripts and the p50 read of analyze-k6-results
    use the index floor(n * k/100) instead, which returns a different
    element, 200 instead of 100, already on the sorted sequence 100, 200 at
    the median. -/
theorem c1_percentile_policy :
    (∀ (l : List ℚ) (k : ℚ), l ≠ [] → 0 < k → k ≤ 100 →
      Streaming.calculatePercentile l k =
        some (Spec.specNearestRank (jsSortNum l) k)) ∧
    (Exporter.calculateEndpointStats "T" "E" expBucket100200).medianResponseTime = 200 ∧
    (ParserScript.endpointStatsOf parBucket100200).median = some 200 ∧
    (Results.endpointStatsOf [100, 200]).p50 = some 200 ∧
    Spec.specNearestRank [100, 200] 50 = 100 := by
  refine ⟨fun l k hl _hk0 hk => ?_, by decide, by decide, by decide, by decide⟩
  have hn : 0 < l.length := List.length_pos.mpr hl
  rw [calculatePercentile_eq l k hl]
  simp only [Spec.specNearestRank, jsSortNum_length, Int.cast_natCast]
  have hceil : ⌈k / 100 * (l.length : ℚ)⌉ - 1 ≤ (l.length : ℤ) - 1 := by
    have h1 : k / 100 * (l.length : ℚ) ≤ (l.length : ℚ) := by
      have h0 : (0 : ℚ) ≤ (l.length : ℚ) := by positivity
      nlinarith
    have h2 : ⌈k / 100 * (l.length : ℚ)⌉ ≤ (l.length : ℤ) :=
      Int.ceil_le.mpr (by exact_mod_cast h1)
    omega
  rw [min_eq_right hceil]
  have hlt : (max 0 (⌈k / 100 * (l.length : ℚ)⌉ - 1)).toNat <
      (jsSortNum l).length := by
    rw [jsSortNum_length]
    exact ceilIdx_lt hn hk
  rw [List.getD_eq_getElem?_getD, List.getElem?_eq_getElem hlt]
  rfl

/-- C1 witness: the streaming percentile agreement applied at the list
    100, 200 and percentile 95. -/
theorem c1_percentile_policy_witness :
    Streaming.calculatePercentile [100, 200] 95 =
      some (Spec.specNearestRank (jsSortNum [100, 200]) 95) :=
  c1_percentile_policy.1 [100, 200] 95 (by decide) (by norm_num) (by norm_num)

/-- C7 counterexample: on the two duration lines for endpoint A with values
    100 and 200 the exporter's summary reports median 200, but the
    documented nearest-rank policy selects index ceil(0.5 * 2) - 1 = 0 of
    the sorted sequence, which is 100, so the reported median does not match
    the documented percentile policy. -/
theorem c7_scenario_counterexample :
    (Streaming.lookupKey
        (Exporter.parseK6Results [.ok durLineA100, .ok durLineA200]) "A").map
        (fun b => (Exporter.calculateEndpointStats "T" "A" b).medianResponseTime) =
      some 200 ∧
    Spec.specNearestRank [100, 200] 50 = 100 ∧
    (200 : ℚ) ≠ 100 := by
  refine ⟨by decide, by decide, by decide⟩

/-- C7 amended: on the two duration lines for endpoint A the summary reports
    min 100, max 200, avg 150 and median 200, where the median comes from
    the floor(n / 2) index of the sorted durations, not from the documented
    nearest-rank policy, which would give 100. -/
theorem c7_scenario :
    (Streaming.lookupKey
        (Exporter.parseK6Results [.ok durLineA100, .ok durLineA200]) "A").map
        (fun b =>
          ((Exporter.calculateEndpointStats "T" "A" b).minResponseTime,
           (Exporter.calculateEndpointStats "T" "A" b).maxResponseTime,
           (Exporter.calculateEndpointStats "T" "A" b).avgResponseTime,
           (Exporter.calculateEndpointStats "T" "A" b).medianResponseTime)) =
      some (some 100, some 200, 150, 200) ∧
    Spec.specNearestRank [100, 200] 50 = 100 := by
  refine ⟨by decide, by decide⟩

/-- C3: when a bucket has zero recorded checks, the parser script divides by
    zero and its success rate is the non-finite NaN (modelled none), while
    the exporter's guard reports the explicit sentinel 0 on the same input,
    one http_reqs line for endpoint A with no checks. -/
theorem c3_success_rate_zero_checks :
    ((ParserScript.parseK6Results [.ok reqLineA]).bind
        (fun l => Streaming.lookupKey l "A")).map (·.successRate) =
      some none ∧
    (Streaming.lookupKey (Exporter.parseK6Results [.ok reqLineA]) "A").map
        (fun b => (Exporter.calculateEndpointStats "T" "A" b).successRate) =
      some 0 := by
  refine ⟨by decide, by decide⟩

theorem exporter_metricsOf_length (lines : List LineParse) :
    (Exporter.metricsOf lines).length = lines.countP (·.isOk) := by
  induction lines with
  | nil => rfl
  | cons l lines ih =>
    cases l with
    | ok m =>
      simp [Exporter.metricsOf, Exporter.parseLine, List.countP_cons,
        LineParse.isOk] at *
      omega
    | bad =>
      simp [Exporter.metricsOf, Exporter.parseLine, List.countP_cons,
        LineParse.isOk] at *
      omega

theorem streamParse_skips_bad (lines : List LineParse) :
    Streaming.streamParse lines =
      Streaming.streamParse (lines.filter (·.isOk)) := by
  show lines.foldl Streaming.streamLineStep {} =
    (lines.filter (·.isOk)).foldl Streaming.streamLineStep {}
  generalize ({} : Streaming.StreamState) = st
  induction lines generalizing st with
  | nil => rfl
  | cons l lines ih =>
    cases l with
    | ok m => simp [List.filter, LineParse.isOk, List.foldl, ih]
    | bad =>
      simp only [List.filter, LineParse.isOk, List.foldl]
      exact ih st

theorem parser_metricsOf_bad {lines : List LineParse}
    (h : LineParse.bad ∈ lines) : ParserScript.metricsOf lines = none := by
  induction lines with
  | nil => cases h
  | cons l lines ih =>
    unfold ParserScript.metricsOf at *
    rw [List.mapM_cons]
    cases l with
    | bad => rfl
    | ok m =>
      have hmem : LineParse.bad ∈ lines := by
        rcases List.mem_cons.mp h with h1 | h1
        · simp at h1
        · exact h1
      rw [ih hmem]
      rfl

theorem parser_metricsOf_good {lines : List LineParse}
    (h : LineParse.bad ∉ lines) :
    ∃ ms, ParserScript.metricsOf lines = some ms ∧ ms.length = lines.length := by
  induction lines with
  | nil => exact ⟨[], rfl, rfl⟩
  | cons l lines ih =>
    cases l with
    | bad => exact absurd (List.mem_cons_self _ _) h
    | ok m =>
      have hne : LineParse.bad ∉ lines := fun hm => h (List.mem_cons_of_mem _ hm)
      obtain ⟨ms, hms, hlen⟩ := ih hne
      refine ⟨m :: ms, ?_, by simp [hlen]⟩
      unfold ParserScript.metricsOf at *
      rw [List.mapM_cons, hms]
      rfl

/-- C4 counterexample: an input of one well-formed line and one malformed
    line makes the parser script's whole parse fail with null instead of
    yielding the one parsed sample, while the exporter's reader yields
    exactly that one sample. -/
theorem c4_malformed_counterexample :
    ParserScript.parseK6Results [.ok reqLineA, .bad] = none ∧
    (Exporter.metricsOf [.ok reqLineA, .bad]).length = 1 := by
  refine ⟨by decide, by decide⟩

/-- C4 amended: the exporter's reader yields exactly the N parseable lines
    and the streaming analyzer's loop ignores malformed lines, but neither
    reports a skipped count; the parser script has no per-line recovery, so
    any malformed line aborts its whole parse with null, and it yields all N
    samples only when every line parses. -/
theorem c4_sample_reader :
    (∀ lines : List LineParse,
      (Exporter.metricsOf lines).length = lines.countP (·.isOk)) ∧
    (∀ lines : List LineParse,
      Streaming.streamParse lines =
        Streaming.streamParse (lines.filter (·.isOk))) ∧
    (∀ lines : List LineParse, LineParse.bad ∈ lines →
      ParserScript.metricsOf lines = none) ∧
    (∀ lines : List LineParse, LineParse.bad ∉ lines →
      ∃ ms, ParserScript.metricsOf lines = some ms ∧
        ms.length = lines.length) :=
  ⟨exporter_metricsOf_length, streamParse_skips_bad,
    fun _ h => parser_metricsOf_bad h, fun _ h => parser_metricsOf_good h⟩

/-- C4 witness: the amended reader behaviour applied at concrete inputs: a
    malformed line aborts the parser script, and an all-well-formed input
    yields every sample. -/
theorem c4_sample_reader_witness :
    ParserScript.metricsOf [LineParse.bad] = none ∧
    (∃ ms, ParserScript.metricsOf [LineParse.ok reqLineA] = some ms ∧
      ms.length = [LineParse.ok reqLineA].length) :=
  ⟨c4_sample_reader.2.2.1 [LineParse.bad] (by decide),
   c4_sample_reader.2.2.2 [LineParse.ok reqLineA] (by decide)⟩

theorem lookupKey_cons {β : Type} (p : String × β) (l : List (String × β))
    (k : String) :
    Streaming.lookupKey (p :: l) k =
      if p.1 = k then some p.2 else Streaming.lookupKey l k := by
  by_cases hp : p.1 = k <;> simp [Streaming.lookupKey, List.find?, hp]

theorem lookupKey_modify_eq {β : Type} (l : List (String × β)) (k : String)
    (f : β → β) :
    Streaming.lookupKey
        (l.map fun q => if q.1 = k then (q.1, f q.2) else q) k =
      (Streaming.lookupKey l k).map f := by
  induction l with
  | nil => rfl
  | cons p l ih =>
    by_cases hp : p.1 = k
    · simp [lookupKey_cons, hp]
    · simp only [List.map_cons, if_neg hp]
      rw [lookupKey_cons, lookupKey_cons, if_neg hp, if_neg hp]
      exact ih

theorem lookupKey_modify_ne {β : Type} (l : List (String × β)) (k k' : String)
    (f : β → β) (hne : k' ≠ k) :
    Streaming.lookupKey
        (l.map fun q => if q.1 = k then (q.1, f q.2) else q) k' =
      Streaming.lookupKey l k' := by
  induction l with
  | nil => rfl
  | cons p l ih =>
    by_cases hp : p.1 = k
    · have hp' : ¬ p.1 = k' := fun h => hne (h.symm.trans hp)
      simp only [List.map_cons, if_pos hp]
      rw [lookupKey_cons, lookupKey_cons]
      simp only [hp', if_false]
      exact ih
    · simp only [List.map_cons, if_neg hp]
      rw [lookupKey_cons, lookupKey_cons]
      by_cases hp' : p.1 = k'
      · simp [hp']
      · simp only [hp', if_false]
        exact ih

theorem lookupKey_append_one {β : Type} (l : List (String × β)) (k k' : String)
    (b : β) :
    Streaming.lookupKey (l ++ [(k, b)]) k' =
      (Streaming.lookupKey l k').or (if k = k' then some b else none) := by
  induction l with
  | nil =>
    by_cases hk : k = k' <;>
      simp [Streaming.lookupKey, List.find?, hk]
  | cons p l ih =>
    rw [List.cons_append, lookupKey_cons, lookupKey_cons]
    by_cases hp : p.1 = k'
    · rw [if_pos hp, if_pos hp]
      rfl
    · rw [if_neg hp, if_neg hp]
      exact ih

theorem lookupKey_none_of_any_false {β : Type} (l : List (String × β))
    (k : String) (h : l.any (·.1 = k) = false) :
    Streaming.lookupKey l k = none := by
  induction l with
  | nil => rfl
  | cons p l ih =>
    simp only [List.any_cons, Bool.or_eq_false_iff, decide_eq_false_iff_not]
      at h
    rw [lookupKey_cons, if_neg h.1]
    exact ih h.2

theorem lookupKey_isSome_of_any {β : Type} (l : List (String × β))
    (k : String) (h : l.any (·.1 = k) = true) :
    (Streaming.lookupKey l k).isSome := by
  induction l with
  | nil => cases h
  | cons p l ih =>
    rw [lookupKey_cons]
    by_cases hp : p.1 = k
    · simp [hp]
    · simp only [List.any_cons, decide_eq_true_eq, hp, false_or] at h
      simp only [hp, if_false]
      exact ih (by simpa using h)

theorem lookupKey_upsertWith {β : Type} (l : List (String × β)) (k : String)
    (init : β) (f : β → β) :
    Streaming.lookupKey (Streaming.upsertWith l k init f) k =
      some (f ((Streaming.lookupKey l k).getD init)) := by
  unfold Streaming.upsertWith
  by_cases ha : l.any (·.1 = k)
  · rw [if_pos ha, lookupKey_modify_eq]
    obtain ⟨b, hb⟩ := Option.isSome_iff_exists.mp (lookupKey_isSome_of_any l k ha)
    rw [hb]
    rfl
  · have ha' : l.any (·.1 = k) = false := Bool.eq_false_iff.mpr ha
    rw [if_neg ha, lookupKey_append_one, lookupKey_none_of_any_false l k ha']
    simp

theorem lookupKey_upsertWith_ne {β : Type} (l : List (String × β))
    (k k' : String) (init : β) (f : β → β) (hne : k' ≠ k) :
    Streaming.lookupKey (Streaming.upsertWith l k init f) k' =
      Streaming.lookupKey l k' := by
  unfold Streaming.upsertWith
  by_cases ha : l.any (·.1 = k)
  · rw [if_pos ha]
    exact lookupKey_modify_ne l k k' f hne
  · rw [if_neg ha, lookupKey_append_one, if_neg (fun h => hne h.symm)]
    exact Option.or_none

/-- C8 counterexample: a checks line whose tags carry both the explicit
    endpoint tag Apps and a check name containing the separator is keyed by
    the check-name prefix Foo, not by the explicit endpoint tag, so the
    claimed precedence of the explicit endpoint tag over the check-name
    split fails in the exporter. -/
theorem c8_routing_counterexample :
    Streaming.lookupKey (Exporter.parseK6Results [.ok checksBothTags]) "Apps" =
      none ∧
    (Streaming.lookupKey (Exporter.parseK6Results [.ok checksBothTags]) "Foo").map
        (fun b => b.checks.map (·.check)) =
      some ["Foo - ok"] := by
  refine ⟨by decide, by decide⟩

/-- C8 amended: a http_req_duration sample tagged endpoint Apps is routed
    into the Apps bucket's durations by the exporter and by the streaming
    analyzer; however the exporter keys a checks sample by the check-name
    split even when an explicit endpoint tag is present, drops a non-checks
    sample that has no endpoint tag, and only the streaming analyzer uses
    the fallback chain endpoint tag, then name tag, then Unknown. -/
theorem c8_endpoint_routing :
    (∀ (st : Exporter.ParseState) (v t : ℚ) (tags : Tags) (ty : Option String),
      tags.endpoint = some "Apps" →
      Streaming.lookupKey
          (Exporter.parseStep st
            { metric := "http_req_duration", type := ty,
              data := { value := v, time := t, tags := tags } }).endpointData
          "Apps" =
        some (let b := (Streaming.lookupKey st.endpointData "Apps").getD {}
              { b with durations := b.durations ++ [⟨v, t, tags⟩] })) ∧
    (∀ (st : List (String × Streaming.StreamBucket)) (point : MetricData),
      point.tags.endpoint = some "Apps" →
      Streaming.lookupKey (Streaming.streamGroupStep st point) "Apps" =
        some (let b := (Streaming.lookupKey st "Apps").getD {}
              { b with durations := b.durations ++ [point.value] })) ∧
    (∀ (st : Exporter.ParseState) (v t : ℚ),
      Streaming.lookupKey
          (Exporter.parseStep st
            { metric := "checks",
              data := { value := v, time := t,
                        tags := { endpoint := some "Apps",
                                  check := some "Foo - ok" } } }).endpointData
          "Foo" =
        some (let b := (Streaming.lookupKey st.endpointData "Foo").getD {}
              { b with checks := b.checks ++ [⟨v, t, "Foo - ok"⟩] })) ∧
    (∀ (st : Exporter.ParseState) (v t : ℚ),
      Exporter.parseStep st
          { metric := "http_req_duration",
            data := { value := v, time := t, tags := {} } } = st) ∧
    Streaming.streamEndpointKey { name := some "N" } = "N" ∧
    Streaming.streamEndpointKey {} = "Unknown" := by
  refine ⟨fun st v t tags ty htag => ?_, fun st point htag => ?_,
    fun st v t => ?_, fun st v t => rfl, by decide, by decide⟩
  · have htt : tagTruthy tags.endpoint = some "Apps" := by
      rw [htag]; decide
    simp only [Exporter.parseStep, htt]
    simp only [String.reduceEq, false_and, if_false, Option.isSome_some,
      if_true, Option.getD_some]
    rw [lookupKey_upsertWith]
    rfl
  · have hkey : Streaming.streamEndpointKey point.tags = "Apps" := by
      simp [Streaming.streamEndpointKey, jsOrS, tagTruthy, htag]
    simp only [Streaming.streamGroupStep, hkey]
    rw [lookupKey_upsertWith]
  · have hfoo : Exporter.checkEndpointOf "Foo - ok" = "Foo" := by decide
    simp only [Exporter.parseStep]
    simp only [String.reduceEq, true_and, tagTruthy, Option.isSome_some,
      if_true, if_false, Option.getD_some]
    rw [hfoo, lookupKey_upsertWith]

/-- C8 witness: the routing conjuncts applied to concrete samples with
    value 123.4 and an empty prior state. -/
theorem c8_endpoint_routing_witness :
    Streaming.lookupKey
        (Exporter.parseStep {}
          { metric := "http_req_duration", type := none,
            data := { value := 617/5, time := 0,
                      tags := { endpoint := some "Apps" } } }).endpointData
        "Apps" =
      some (let b :=
              (Streaming.lookupKey ({} : Exporter.ParseState).endpointData
                "Apps").getD {}
            { b with durations :=
                b.durations ++ [⟨617/5, 0, { endpoint := some "Apps" }⟩] }) ∧
    Streaming.lookupKey
        (Streaming.streamGroupStep []
          { value := 617/5, time := 0,
            tags := { endpoint := some "Apps" } }) "Apps" =
      some (let b := (Streaming.lookupKey
              ([] : List (String × Streaming.StreamBucket)) "Apps").getD {}
            { b with durations := b.durations ++ [(617/5 : ℚ)] }) :=
  ⟨c8_endpoint_routing.1 {} (617/5) 0 { endpoint := some "Apps" } none rfl,
   c8_endpoint_routing.2.1 []
     { value := 617/5, time := 0, tags := { endpoint := some "Apps" } } rfl⟩

/-- C9 counterexample: invoking the exporter on a missing input file prints
    the descriptive not-found message but the process terminates with exit
    code 0, not with a non-zero exit code. -/
theorem c9_exit_code_counterexample :
    Cli.exporterMain ["missing.json"] (fun _ => none) true =
      (0, [Cli.Msg.jsonFileNotFound "missing.json"]) ∧
    (Cli.exporterMain ["missing.json"] (fun _ => none) true).1 = 0 :=
  ⟨rfl, rfl⟩

/-- C9 amended: the two analysis tools the claim cites do not abort on
    I/O-level errors: in the export script and in the streaming analyzer's
    file-analysis path such errors print a descriptive console message and
    return normally, so those invocations terminate with exit code 0.  The
    claimed non-zero abort occurs only elsewhere: the workflow runner's
    catch calls process.exit(1) on any step failure, including a missing
    required file; the CSV-history helper calls process.exit(1) on a
    missing argument or a write failure; and the streaming analyzer's
    zero-argument usage path lists the results directory outside any try
    block, so a missing directory terminates the process non-zero through
    an uncaught exception.  Parse-level errors on individual lines are
    skipped in the exporter and streaming analyzer and do not abort. -/
theorem c9_error_policy :
    (∀ (args : List String) (fs : Cli.FileSys) (w : Bool),
      (Cli.exporterMain args fs w).1 = 0) ∧
    (∀ (p : String) (rest : List String) (fs : Cli.FileSys)
        (dir : Option (List String)) (w : Bool),
      (Cli.streamingMain (p :: rest) fs dir w).1 = 0) ∧
    (∀ (p : String) (rest : List String) (fs : Cli.FileSys) (w : Bool),
      fs p = none →
      Cli.exporterMain (p :: rest) fs w =
        (0, [Cli.Msg.jsonFileNotFound p])) ∧
    (∀ (p : String) (rest : List String) (fs : Cli.FileSys)
        (dir : Option (List String)) (w : Bool),
      fs p = none →
      Cli.streamingMain (p :: rest) fs dir w =
        (0, [Cli.Msg.fileNotFound p])) ∧
    (∀ (fs : Cli.FileSys) (w : Bool),
      Cli.streamingMain [] fs none w = (1, [Cli.Msg.uncaughtException])) ∧
    (∀ (argv : List String) (exps k6ok out expok : Bool),
      argv.contains "--help" = false → argv.contains "-h" = false →
      Cli.completeTestMain argv true false exps k6ok out expok =
        (1, [Cli.Msg.workflowFailed])) ∧
    (∀ (r : String), Cli.csvHistoryMain (some r) false =
      (1, [Cli.Msg.appendFailed])) ∧
    (∀ (w : Bool), Cli.csvHistoryMain none w = (1, [Cli.Msg.noCsvRow])) := by
  refine ⟨fun args fs w => ?_, fun p rest fs dir w => ?_,
    fun p rest fs w h => ?_, fun p rest fs dir w h => ?_,
    fun fs w => rfl, fun argv exps k6ok out expok h1 h2 => ?_,
    fun r => rfl, fun w => rfl⟩
  · match args with
    | [] => rfl
    | p :: rest =>
      simp only [Cli.exporterMain]
      split
      · rfl
      · split
        · rfl
        · rfl
  · simp only [Cli.streamingMain]
    split
    · rfl
    · rfl
  · simp [Cli.exporterMain, h]
  · simp [Cli.streamingMain, h]
  · simp only [Cli.completeTestMain]
    rw [h1, h2]
    rfl

/-- C9 witness: the amended error policy applied to concrete invocations:
    missing input files on an empty file system for both analysis tools,
    and the workflow runner invoked without help flags while the k6 script
    is missing. -/
theorem c9_error_policy_witness :
    Cli.exporterMain ["a.json"] (fun _ => none) false =
      (0, [Cli.Msg.jsonFileNotFound "a.json"]) ∧
    Cli.streamingMain ["b.json"] (fun _ => none) none false =
      (0, [Cli.Msg.fileNotFound "b.json"]) ∧
    Cli.completeTestMain [] true false true true true true =
      (1, [Cli.Msg.workflowFailed]) :=
  ⟨c9_error_policy.2.2.1 "a.json" [] (fun _ => none) false rfl,
   c9_error_policy.2.2.2.1 "b.json" [] (fun _ => none) none false rfl,
   c9_error_policy.2.2.2.2.2.1 [] true true true true rfl rfl⟩

theorem joinLines_append (xs ys : List (List Char)) (hx : xs ≠ [])
    (hy : ys ≠ []) :
    Writer.joinLines (xs ++ ys) =
      Writer.joinLines xs ++ '\n' :: Writer.joinLines ys := by
  induction xs with
  | nil => exact absurd rfl hx
  | cons x xs ih =>
    cases xs with
    | nil =>
      cases ys with
      | nil => exact absurd rfl hy
      | cons y ys => simp [Writer.joinLines]
    | cons x2 xs2 =>
      have h2 := ih (by simp)
      have e1 : Writer.joinLines ((x :: x2 :: xs2) ++ ys) =
          x ++ '\n' :: Writer.joinLines ((x2 :: xs2) ++ ys) := rfl
      have e2 : Writer.joinLines (x :: x2 :: xs2) =
          x ++ '\n' :: Writer.joinLines (x2 :: xs2) := rfl
      rw [e1, h2, e2]
      simp

theorem digitChar_ne_rparen (m : ℕ) : Writer.digitChar m ≠ ')' := by
  unfold Writer.digitChar
  split <;> decide

theorem natDigits_last (n : ℕ) :
    ∃ pre, Writer.natDigits n = pre ++ [Writer.digitChar (n % 10)] := by
  rw [Writer.natDigits]
  by_cases h : n < 10
  · exact ⟨[], by simp [if_pos h, Nat.mod_eq_of_lt h]⟩
  · exact ⟨Writer.natDigits (n / 10), by rw [if_neg h]⟩

theorem intRepr_last (z : ℤ) :
    ∃ pre d, Writer.intRepr z = pre ++ [d] ∧ d ≠ ')' := by
  unfold Writer.intRepr
  by_cases h : z < 0
  · obtain ⟨pre, hpre⟩ := natDigits_last z.natAbs
    refine ⟨'-' :: pre, Writer.digitChar (z.natAbs % 10), ?_,
      digitChar_ne_rparen _⟩
    rw [if_pos h, hpre]
    simp
  · obtain ⟨pre, hpre⟩ := natDigits_last z.toNat
    exact ⟨pre, Writer.digitChar (z.toNat % 10), by rw [if_neg h, hpre],
      digitChar_ne_rparen _⟩

theorem renderRow_last (fields : List (List Char)) (f : List Char) :
    ∃ pre, Writer.renderRow (fields ++ [f]) = pre ++ (f ++ ['"']) := by
  induction fields with
  | nil =>
    exact ⟨['"'], by
      simp [Writer.renderRow, Writer.joinComma, Writer.quoteField]⟩
  | cons g fields ih =>
    obtain ⟨pre, hpre⟩ := ih
    refine ⟨Writer.quoteField g ++ ',' :: pre, ?_⟩
    have hne : fields ++ [f] ≠ [] := by simp
    cases hcase : fields ++ [f] with
    | nil => exact absurd hcase hne
    | cons q qs =>
      simp only [Writer.renderRow, List.cons_append, List.map_cons] at hpre ⊢
      rw [hcase] at hpre ⊢
      simp only [List.map_cons] at hpre ⊢
      rw [Writer.joinComma]
      · rw [show Writer.joinComma (Writer.quoteField q :: qs.map Writer.quoteField) =
            Writer.renderRow (q :: qs) from rfl] at hpre ⊢
        rw [hpre]
        simp
      · simp

/-- No rendered statistics row can equal the header line: the row ends in
    the rendered maxLoadLevel integer, whose last character is a digit or a
    minus sign, while the header's last column name ends in a closing
    parenthesis. -/
theorem rowLine_ne_headerLine (s : Writer.StatsRow) :
    Writer.rowLine s ≠ Writer.headerLine := by
  intro he
  obtain ⟨pre2, d, hd, hdne⟩ := intRepr_last s.maxLoadLevel
  have hsplit : Writer.rowFields s =
      [s.endpoint, s.dateTime, Writer.natDigits s.totalRequests, s.successRate,
       s.minResponseTime, s.maxResponseTime, s.avgResponseTime,
       s.medianResponseTime, s.p95ResponseTime, s.p99ResponseTime,
       s.avgBlockedTime, s.avgConnectingTime, s.avgSendingTime,
       s.avgWaitingTime, s.avgReceivingTime, s.totalDataReceivedKB,
       s.totalDataSentKB, s.requestsPerSecond, s.peakRequestRate,
       s.responseTimeAtPeak] ++ [Writer.intRepr s.maxLoadLevel] := rfl
  obtain ⟨pre, hpre⟩ := renderRow_last _ (Writer.intRepr s.maxLoadLevel)
  have hrow : Writer.rowLine s = (pre ++ pre2) ++ [d, '"'] := by
    rw [Writer.rowLine, hsplit, hpre, hd]
    simp
  have h1 : (Writer.rowLine s).reverse[1]? = some d := by
    rw [hrow, List.reverse_append]
    have : ([d, '"'] : List Char).reverse = ['"', d] := rfl
    rw [this]
    simp [List.getElem?_append]
  have h2 : (Writer.headerLine).reverse[1]? = some ')' := by
    set_option maxRecDepth 10000 in decide
  rw [he, h2] at h1
  exact hdne (Option.some.inj h1).symm

/-- C5: appending a report to an existing file consisting of the header and
    R data rows yields exactly the header, the original rows, one blank
    separator line and the new rows, and the header occurs exactly once in
    that line list. -/
theorem c5_append_mode (origRows : List (List Char))
    (stats : List Writer.StatsRow) (hst : stats ≠ [])
    (hH : Writer.headerLine ∉ origRows) :
    Writer.appendContent (Writer.joinLines (Writer.headerLine :: origRows))
        stats =
      Writer.joinLines
        ((Writer.headerLine :: origRows) ++ [] :: stats.map Writer.rowLine) ∧
    List.count Writer.headerLine
        ((Writer.headerLine :: origRows) ++ [] :: stats.map Writer.rowLine) =
      1 := by
  have hmap : stats.map Writer.rowLine ≠ [] := by
    simpa [List.map_eq_nil_iff] using hst
  constructor
  · rw [Writer.appendContent,
      joinLines_append (Writer.headerLine :: origRows)
        ([] :: stats.map Writer.rowLine) (by simp) (by simp)]
    have e : Writer.joinLines ([] :: stats.map Writer.rowLine) =
        '\n' :: Writer.joinLines (stats.map Writer.rowLine) := by
      cases hcase : stats.map Writer.rowLine with
      | nil => exact absurd hcase hmap
      | cons r rs => rfl
    rw [e]
  · rw [List.count_append]
    have hc1 : List.count Writer.headerLine
        (Writer.headerLine :: origRows) = 1 := by
      rw [List.count_cons]
      rw [List.count_eq_zero.mpr hH]
      simp
    have hc2 : List.count Writer.headerLine
        ([] :: stats.map Writer.rowLine) = 0 := by
      have hne : Writer.headerLine ≠ ([] : List Char) := by decide
      rw [List.count_cons, List.count_eq_zero.mpr ?_]
      · simp [hne]
      · intro hmem
        obtain ⟨s, _, hs⟩ := List.mem_map.mp hmem
        exact rowLine_ne_headerLine s hs
    omega

/-- C5 witness: the append-mode content equation applied to one existing
    data row and one new statistics row. -/
theorem c5_append_mode_witness :
    Writer.appendContent
        (Writer.joinLines (Writer.headerLine :: [sampleOldRow]))
        [sampleStatsRow] =
      Writer.joinLines
        ((Writer.headerLine :: [sampleOldRow]) ++
          [] :: [sampleStatsRow].map Writer.rowLine) ∧
    List.count Writer.headerLine
        ((Writer.headerLine :: [sampleOldRow]) ++
          [] :: [sampleStatsRow].map Writer.rowLine) = 1 :=
  c5_append_mode [sampleOldRow] [sampleStatsRow] (by simp) (by decide)

/-- C6: running the writer in append mode when the target file does not
    exist produces exactly the create-mode content: the header line followed
    by the data rows, with no leading blank separator line. -/
theorem c6_append_without_file (stats : List Writer.StatsRow)
    (existing : Option (List Char)) :
    Writer.exportCsvContent true none stats =
      Writer.exportCsvContent false existing stats ∧
    Writer.exportCsvContent false existing stats =
      Writer.joinLines (Writer.headerLine :: stats.map Writer.rowLine) ∧
    Writer.headerLine ≠ [] :=
  ⟨rfl, rfl, by decide⟩

end RatKernelEval

end K6
